import Mathlib

/-!
Shallow embedding of `src/aggregated_range_proof/dealer.rs` from the
ristretto-bulletproofs repository: the dealer side of the aggregated
range-proof MPC protocol.

Modelling conventions:
* `Pt` is the elliptic-curve group of Ristretto points (an additive
  commutative group with identity `0`); `Sc` is the scalar field
  (addition, multiplication, inversion); `Ipp` is the opaque type of
  inner-product proofs.
* The `ProofTranscript` collaborator is modelled as an explicit trace of
  events (`Transcript`): `commit` appends a byte string, `commit_u64`
  appends a 64-bit value, and `challenge_scalar` is a deterministic
  function of the whole trace so far (supplied externally) that also
  appends a squeeze marker, so successive challenges differ.
* All external collaborators (point compression, scalar serialization,
  challenge derivation, per-share verification, the inner-product proof
  constructor) are bundled in `DealerExt` and left entirely abstract, as
  the source consumes them through narrow interfaces.
* Rust `Result<T, (State, &str)>` with an `&mut` transcript becomes
  `Except (State × String) T × Transcript`: the returned transcript is
  the final state of the mutable borrow.
-/

namespace RBP

/-- One event on the Fiat-Shamir transcript: a committed 64-bit value, a
committed byte string, or a challenge squeeze. -/
inductive Entry : Type where
  | u64 : Nat → Entry
  | bytes : List Nat → Entry
  | chal : Entry
deriving DecidableEq

/-- The transcript state: the ordered trace of everything committed or
squeezed so far. -/
abbrev Transcript : Type := List Entry

/-- `ProofTranscript::commit`: append a byte string to the trace. -/
def Transcript.commitBytes (t : Transcript) (bs : List Nat) : Transcript :=
  t ++ [Entry.bytes bs]

/-- `ProofTranscript::commit_u64`: append a 64-bit value to the trace. -/
def Transcript.commitU64 (t : Transcript) (v : Nat) : Transcript :=
  t ++ [Entry.u64 v]

/-- Per-party first-round message `ValueCommitment { V, A, S }`. -/
structure ValueCommitment (Pt : Type) : Type where
  V : Pt
  A : Pt
  S : Pt
deriving DecidableEq

/-- Round-1 challenge pair `ValueChallenge { y, z }`. -/
structure ValueChallenge (Sc : Type) : Type where
  y : Sc
  z : Sc
deriving DecidableEq

/-- Per-party second-round message `PolyCommitment { T_1, T_2 }`. -/
structure PolyCommitment (Pt : Type) : Type where
  T_1 : Pt
  T_2 : Pt
deriving DecidableEq

/-- Round-2 challenge `PolyChallenge { x }`. -/
structure PolyChallenge (Sc : Type) : Type where
  x : Sc
deriving DecidableEq

/-- A party's final contribution `ProofShare`. -/
structure ProofShare (Pt Sc : Type) : Type where
  value_commitment : ValueCommitment Pt
  poly_commitment : PolyCommitment Pt
  t_x : Sc
  t_x_blinding : Sc
  e_blinding : Sc
  l_vec : List Sc
  r_vec : List Sc
deriving DecidableEq

/-- The `PedersenGenerators` part of the generators view: we model the
primary base generator `B` used for `Q = w * B`. -/
structure PedersenGenerators (Pt : Type) : Type where
  B : Pt
deriving DecidableEq

/-- `GeneratorsView`: the base generator and the two generator vectors. -/
structure GeneratorsView (Pt : Type) : Type where
  pedersen_generators : PedersenGenerators Pt
  G : List Pt
  H : List Pt
deriving DecidableEq

/-- The final aggregate `Proof` artifact. -/
structure Proof (Pt Sc Ipp : Type) : Type where
  n : Nat
  value_commitments : List Pt
  A : Pt
  S : Pt
  T_1 : Pt
  T_2 : Pt
  t_x : Sc
  t_x_blinding : Sc
  e_blinding : Sc
  ipp_proof : Ipp
deriving DecidableEq

/-- External collaborators consumed by the dealer, kept abstract: point
compression, scalar serialization, challenge derivation from a trace,
the per-share verifier owned by the share type, and the inner-product
proof constructor (which also extends the transcript it is given). -/
structure DealerExt (Pt Sc Ipp : Type) : Type where
  compress : Pt → List Nat
  scalarBytes : Sc → List Nat
  challengeScalar : Transcript → Sc
  verifyShare : ProofShare Pt Sc → ValueChallenge Sc → PolyChallenge Sc → Bool
  ippCreate : Transcript → Pt → (Nat → Sc) → List Pt → List Pt →
      List Sc → List Sc → Ipp × Transcript

/-- `ProofTranscript::challenge_scalar`: derive a scalar deterministically
from the trace so far and record the squeeze on the trace. -/
def Transcript.challengeScalar {Pt Sc Ipp : Type} (ext : DealerExt Pt Sc Ipp)
    (t : Transcript) : Sc × Transcript :=
  (ext.challengeScalar t, t ++ [Entry.chal])

/-- `util::exp_iter x`: the iterator of powers `1, x, x^2, ...`, modelled
as the function sending an index to the corresponding power. -/
def util.exp_iter {Sc : Type} [Monoid Sc] (x : Sc) : Nat → Sc :=
  fun i => x ^ i

/-- `DealerAwaitingValues`: after `Dealer::new`, the dealer knows only the
shape `n, m`. -/
structure DealerAwaitingValues : Type where
  n : Nat
  m : Nat
deriving DecidableEq

/-- `DealerAwaitingPoly`: shape plus the round-1 challenge. -/
structure DealerAwaitingPoly (Sc : Type) : Type where
  n : Nat
  m : Nat
  value_challenge : ValueChallenge Sc
deriving DecidableEq

/-- `DealerAwaitingShares`: shape plus both challenges. -/
structure DealerAwaitingShares (Sc : Type) : Type where
  n : Nat
  m : Nat
  value_challenge : ValueChallenge Sc
  poly_challenge : PolyChallenge Sc
deriving DecidableEq

/-- `Dealer::new(n, m, transcript)`: commit `n` then `m` as 64-bit values
and return the `DealerAwaitingValues` state.  The Rust return type is
`Result<DealerAwaitingValues, &'static str>` but the body always returns
`Ok`. -/
def Dealer.new (n m : Nat) (transcript : Transcript) :
    Except String DealerAwaitingValues × Transcript :=
  let t1 := transcript.commitU64 n
  let t2 := t1.commitU64 m
  (Except.ok { n := n, m := m }, t2)

/-- Error message for `receive_value_commitments` length mismatch. -/
def msgLenValues : String :=
  "Length of value commitments does not match expected length m"

/-- Error message for `receive_poly_commitments` length mismatch. -/
def msgLenPoly : String :=
  "Length of poly commitments does not match expected length m"

/-- Error message for `receive_shares` length mismatch. -/
def msgLenShares : String :=
  "Length of proof shares does not match expected length m"

/-- Error message for an invalid proof share. -/
def msgInvalidShare : String :=
  "One of the proof shares is invalid"

/-- `DealerAwaitingValues::receive_value_commitments`: check the batch
length, then for each commitment commit its `V` to the transcript and add
its `A` and `S` into running aggregates (a fold carrying both aggregates
and the transcript), commit the aggregate `A` then the aggregate `S`,
draw challenges `y` then `z`, and move to `DealerAwaitingPoly`. -/
def DealerAwaitingValues.receive_value_commitments {Pt Sc Ipp : Type}
    [AddCommGroup Pt] (ext : DealerExt Pt Sc Ipp)
    (self : DealerAwaitingValues)
    (value_commitments : List (ValueCommitment Pt))
    (transcript : Transcript) :
    Except (DealerAwaitingValues × String)
        (DealerAwaitingPoly Sc × ValueChallenge Sc) × Transcript :=
  if self.m ≠ value_commitments.length then
    (Except.error (self, msgLenValues), transcript)
  else
    let folded := value_commitments.foldl
      (fun (acc : Pt × Pt × Transcript) commitment =>
        (acc.1 + commitment.A, acc.2.1 + commitment.S,
          (acc.2.2).commitBytes (ext.compress commitment.V)))
      (0, 0, transcript)
    let A := folded.1
    let S := folded.2.1
    let t1 := (folded.2.2).commitBytes (ext.compress A)
    let t2 := t1.commitBytes (ext.compress S)
    let yt := Transcript.challengeScalar ext t2
    let zt := Transcript.challengeScalar ext yt.2
    let value_challenge : ValueChallenge Sc := { y := yt.1, z := zt.1 }
    (Except.ok
      ({ n := self.n, m := self.m, value_challenge := value_challenge },
        value_challenge),
      zt.2)

/-- `DealerAwaitingPoly::receive_poly_commitments`: check the batch
length, sum the `T_1`s and `T_2`s, commit the aggregates in order `T_1`
then `T_2`, draw the challenge `x`, and move to `DealerAwaitingShares`. -/
def DealerAwaitingPoly.receive_poly_commitments {Pt Sc Ipp : Type}
    [AddCommGroup Pt] (ext : DealerExt Pt Sc Ipp)
    (self : DealerAwaitingPoly Sc)
    (poly_commitments : List (PolyCommitment Pt))
    (transcript : Transcript) :
    Except (DealerAwaitingPoly Sc × String)
        (DealerAwaitingShares Sc × PolyChallenge Sc) × Transcript :=
  if self.m ≠ poly_commitments.length then
    (Except.error (self, msgLenPoly), transcript)
  else
    let folded := poly_commitments.foldl
      (fun (acc : Pt × Pt) commitment =>
        (acc.1 + commitment.T_1, acc.2 + commitment.T_2))
      (0, 0)
    let t1 := transcript.commitBytes (ext.compress folded.1)
    let t2 := t1.commitBytes (ext.compress folded.2)
    let xt := Transcript.challengeScalar ext t2
    let poly_challenge : PolyChallenge Sc := { x := xt.1 }
    (Except.ok
      ({ n := self.n, m := self.m,
         value_challenge := self.value_challenge,
         poly_challenge := poly_challenge },
        poly_challenge),
      xt.2)

/-- `DealerAwaitingShares::receive_shares`: check the batch length, verify
every share against the held challenges, then aggregate (collect the `V`s,
sum the group elements and the scalars), commit `t_x`, `t_x_blinding`,
`e_blinding`, draw `w`, set `Q = w * B`, concatenate the per-party `l_vec`
and `r_vec`, call the inner-product constructor, and emit the `Proof`. -/
def DealerAwaitingShares.receive_shares {Pt Sc Ipp : Type}
    [AddCommGroup Pt] [CommRing Sc] [Inv Sc] [SMul Sc Pt]
    (ext : DealerExt Pt Sc Ipp)
    (self : DealerAwaitingShares Sc)
    (proof_shares : List (ProofShare Pt Sc))
    (gen : GeneratorsView Pt)
    (transcript : Transcript) :
    Except (DealerAwaitingShares Sc × String) (Proof Pt Sc Ipp) × Transcript :=
  if self.m ≠ proof_shares.length then
    (Except.error (self, msgLenShares), transcript)
  else if ¬ proof_shares.all
      (fun ps => ext.verifyShare ps self.value_challenge self.poly_challenge) then
    (Except.error (self, msgInvalidShare), transcript)
  else
    let value_commitments := proof_shares.map (fun ps => ps.value_commitment.V)
    let A := proof_shares.foldl (fun A ps => A + ps.value_commitment.A) 0
    let S := proof_shares.foldl (fun S ps => S + ps.value_commitment.S) 0
    let T_1 := proof_shares.foldl (fun T ps => T + ps.poly_commitment.T_1) 0
    let T_2 := proof_shares.foldl (fun T ps => T + ps.poly_commitment.T_2) 0
    let t := proof_shares.foldl (fun acc ps => acc + ps.t_x) 0
    let t_x_blinding := proof_shares.foldl (fun acc ps => acc + ps.t_x_blinding) 0
    let e_blinding := proof_shares.foldl (fun acc ps => acc + ps.e_blinding) 0
    let t1 := transcript.commitBytes (ext.scalarBytes t)
    let t2 := t1.commitBytes (ext.scalarBytes t_x_blinding)
    let t3 := t2.commitBytes (ext.scalarBytes e_blinding)
    let wt := Transcript.challengeScalar ext t3
    let Q := wt.1 • gen.pedersen_generators.B
    let l_vec := (proof_shares.map (fun ps => ps.l_vec)).flatten
    let r_vec := (proof_shares.map (fun ps => ps.r_vec)).flatten
    let created := ext.ippCreate wt.2 Q
      (util.exp_iter (self.value_challenge.y)⁻¹) gen.G gen.H l_vec r_vec
    (Except.ok
      { n := self.n,
        value_commitments := value_commitments,
        A := A, S := S, T_1 := T_1, T_2 := T_2,
        t_x := t, t_x_blinding := t_x_blinding, e_blinding := e_blinding,
        ipp_proof := created.1 },
      created.2)

/-! ### The transcript traces produced by each successful round -/

/-- The transcript after the commit phase of round 1: each party's `V` in
batch order, then the aggregate `A`, then the aggregate `S`. -/
def valueRoundTrace {Pt Sc Ipp : Type} [AddCommGroup Pt]
    (ext : DealerExt Pt Sc Ipp) (vcs : List (ValueCommitment Pt))
    (tr : Transcript) : Transcript :=
  (tr ++ vcs.map (fun c => Entry.bytes (ext.compress c.V)))
    ++ [Entry.bytes (ext.compress ((vcs.map (fun c => c.A)).sum)),
        Entry.bytes (ext.compress ((vcs.map (fun c => c.S)).sum))]

/-- The transcript after the commit phase of round 2: the aggregate `T_1`
then the aggregate `T_2`. -/
def polyRoundTrace {Pt Sc Ipp : Type} [AddCommGroup Pt]
    (ext : DealerExt Pt Sc Ipp) (pcs : List (PolyCommitment Pt))
    (tr : Transcript) : Transcript :=
  tr ++ [Entry.bytes (ext.compress ((pcs.map (fun c => c.T_1)).sum)),
         Entry.bytes (ext.compress ((pcs.map (fun c => c.T_2)).sum))]

/-- The transcript after the commit phase of the final round: the summed
`t_x`, then the summed `t_x_blinding`, then the summed `e_blinding`. -/
def sharesRoundTrace {Pt Sc Ipp : Type} [AddCommMonoid Sc]
    (ext : DealerExt Pt Sc Ipp) (shares : List (ProofShare Pt Sc))
    (tr : Transcript) : Transcript :=
  tr ++ [Entry.bytes (ext.scalarBytes ((shares.map (fun ps => ps.t_x)).sum)),
         Entry.bytes (ext.scalarBytes ((shares.map (fun ps => ps.t_x_blinding)).sum)),
         Entry.bytes (ext.scalarBytes ((shares.map (fun ps => ps.e_blinding)).sum))]

/-- One full protocol run of the dealer state machine, sequencing
`Dealer::new`, `receive_value_commitments`, `receive_poly_commitments`
and `receive_shares` on one threaded transcript, returning the broadcast
challenges, the final proof, and the final transcript. -/
def runDealer {Pt Sc Ipp : Type}
    [AddCommGroup Pt] [CommRing Sc] [Inv Sc] [SMul Sc Pt]
    (ext : DealerExt Pt Sc Ipp) (n m : Nat) (tr0 : Transcript)
    (vcs : List (ValueCommitment Pt)) (pcs : List (PolyCommitment Pt))
    (shares : List (ProofShare Pt Sc)) (gen : GeneratorsView Pt) :
    Except String
      (ValueChallenge Sc × PolyChallenge Sc × Proof Pt Sc Ipp × Transcript) :=
  match Dealer.new n m tr0 with
  | (Except.error e, _) => Except.error e
  | (Except.ok st1, tr1) =>
    match st1.receive_value_commitments ext vcs tr1 with
    | (Except.error _, _) => Except.error "round 1 failed"
    | (Except.ok (st2, vch), tr2) =>
      match st2.receive_poly_commitments ext pcs tr2 with
      | (Except.error _, _) => Except.error "round 2 failed"
      | (Except.ok (st3, pch), tr3) =>
        match st3.receive_shares ext shares gen tr3 with
        | (Except.error _, _) => Except.error "round 3 failed"
        | (Except.ok pr, tr4) => Except.ok (vch, pch, pr, tr4)

deriving instance DecidableEq for Except

/-! ### Concrete fixtures used by the witness theorems

A small concrete instantiation: points and scalars are both `ZMod 5`
(an additive commutative group with a ring structure and an inverse
operation), inner-product proofs are `Nat`, challenge derivation is the
trace length, and a share verifies when its `t_x` is zero. -/

/-- A concrete external-collaborator bundle for witnesses. -/
def wExt : DealerExt (ZMod 5) (ZMod 5) Nat where
  compress p := [p.val]
  scalarBytes s := [s.val]
  challengeScalar t := (t.length : ZMod 5)
  verifyShare ps _ _ := decide (ps.t_x = 0)
  ippCreate t _ _ _ _ l r := (l.length + r.length, t ++ [Entry.chal])

/-- A concrete round-1 commitment. -/
def wVC : ValueCommitment (ZMod 5) := { V := 1, A := 2, S := 3 }

/-- A concrete round-2 commitment. -/
def wPC : PolyCommitment (ZMod 5) := { T_1 := 1, T_2 := 4 }

/-- A concrete valid share (its `t_x` is zero, so `wExt` accepts it). -/
def wShare : ProofShare (ZMod 5) (ZMod 5) :=
  { value_commitment := wVC, poly_commitment := wPC,
    t_x := 0, t_x_blinding := 2, e_blinding := 3,
    l_vec := [1, 2], r_vec := [3, 4] }

/-- A concrete invalid share (its `t_x` is nonzero). -/
def wBadShare : ProofShare (ZMod 5) (ZMod 5) :=
  { value_commitment := wVC, poly_commitment := wPC,
    t_x := 1, t_x_blinding := 2, e_blinding := 3,
    l_vec := [1, 2], r_vec := [3, 4] }

/-- A concrete generators view. -/
def wGen : GeneratorsView (ZMod 5) :=
  { pedersen_generators := { B := 2 }, G := [1, 2, 3, 4], H := [4, 3, 2, 1] }

/-- The state after `Dealer::new 2 1`. -/
def wSt1 : DealerAwaitingValues := { n := 2, m := 1 }

/-- The transcript after `Dealer::new 2 1` on the empty transcript. -/
def wTr1 : Transcript := [Entry.u64 2, Entry.u64 1]

/-- The state after round 1 of the concrete run. -/
def wSt2 : DealerAwaitingPoly (ZMod 5) :=
  { n := 2, m := 1, value_challenge := { y := 0, z := 1 } }

/-- The transcript after round 1 of the concrete run. -/
def wTr2 : Transcript :=
  wTr1 ++ [Entry.bytes [1], Entry.bytes [2], Entry.bytes [3],
    Entry.chal, Entry.chal]

/-- The state after round 2 of the concrete run. -/
def wSt3 : DealerAwaitingShares (ZMod 5) :=
  { n := 2, m := 1, value_challenge := { y := 0, z := 1 },
    poly_challenge := { x := 4 } }

/-- The transcript after round 2 of the concrete run. -/
def wTr3 : Transcript :=
  wTr2 ++ [Entry.bytes [1], Entry.bytes [4], Entry.chal]

/-- The final proof of the concrete run. -/
def wProof : Proof (ZMod 5) (ZMod 5) Nat :=
  { n := 2, value_commitments := [1], A := 2, S := 3, T_1 := 1, T_2 := 4,
    t_x := 0, t_x_blinding := 2, e_blinding := 3, ipp_proof := 4 }

/-- The transcript after the final round of the concrete run. -/
def wTr4 : Transcript :=
  wTr3 ++ [Entry.bytes [0], Entry.bytes [2], Entry.bytes [3],
    Entry.chal, Entry.chal]

/-! ### Characterizations of the aggregation folds -/

/-- A running-aggregate fold with an arbitrary start equals the start plus
the sum of the mapped list. -/
theorem foldl_add_map {M α : Type} [AddCommMonoid M] (f : α → M)
    (l : List α) (a : M) :
    l.foldl (fun acc x => acc + f x) a = a + (l.map f).sum := by
  induction l generalizing a with
  | nil => simp
  | cons x l ih => simp [ih, add_assoc]

/-- The round-1 loop (commit each `V`, sum the `A`s and `S`s) equals the
sums of the mapped lists together with the per-`V` commits appended in
batch order. -/
theorem value_fold_eq {Pt Sc Ipp : Type} [AddCommGroup Pt]
    (ext : DealerExt Pt Sc Ipp) (vcs : List (ValueCommitment Pt))
    (A0 S0 : Pt) (t0 : Transcript) :
    vcs.foldl
      (fun (acc : Pt × Pt × Transcript) commitment =>
        (acc.1 + commitment.A, acc.2.1 + commitment.S,
          (acc.2.2).commitBytes (ext.compress commitment.V)))
      (A0, S0, t0)
    = (A0 + (vcs.map (fun c => c.A)).sum,
       S0 + (vcs.map (fun c => c.S)).sum,
       t0 ++ vcs.map (fun c => Entry.bytes (ext.compress c.V))) := by
  induction vcs generalizing A0 S0 t0 with
  | nil => simp
  | cons c vcs ih =>
    simp only [List.foldl_cons, List.map_cons, List.sum_cons]
    rw [ih]
    simp [Transcript.commitBytes, add_assoc]

/-- The round-2 loop (sum the `T_1`s and `T_2`s) equals the sums of the
mapped lists. -/
theorem poly_fold_eq {Pt : Type} [AddCommGroup Pt]
    (pcs : List (PolyCommitment Pt)) (T10 T20 : Pt) :
    pcs.foldl
      (fun (acc : Pt × Pt) commitment =>
        (acc.1 + commitment.T_1, acc.2 + commitment.T_2))
      (T10, T20)
    = (T10 + (pcs.map (fun c => c.T_1)).sum,
       T20 + (pcs.map (fun c => c.T_2)).sum) := by
  induction pcs generalizing T10 T20 with
  | nil => simp
  | cons c pcs ih => simp [ih, add_assoc]

/-- A flattened list of equal-length slices has length slice-size times
slice-count. -/
theorem flatten_length_const {α : Type} (l : List (List α)) (n0 : Nat)
    (h : ∀ x ∈ l, x.length = n0) :
    l.flatten.length = n0 * l.length := by
  induction l with
  | nil => simp
  | cons x l ih =>
    simp only [List.flatten_cons, List.length_append, List.length_cons]
    rw [h x (by simp), ih (fun y hy => h y (by simp [hy]))]
    ring

/-- `Dealer::new` always returns `Ok` and appends exactly `n` then `m` to
the transcript. -/
theorem dealer_new_eq (n m : Nat) (tr : Transcript) :
    Dealer.new n m tr
      = (Except.ok { n := n, m := m }, tr ++ [Entry.u64 n, Entry.u64 m]) := by
  simp [Dealer.new, Transcript.commitU64]

/-! ### Master equations for the successful paths -/

/-- On a batch of the right length, `receive_value_commitments` succeeds
with the aggregate state, challenge `y` drawn first and `z` second, and
the transcript extended by the round-1 commits followed by two squeezes. -/
theorem receive_value_commitments_ok {Pt Sc Ipp : Type} [AddCommGroup Pt]
    (ext : DealerExt Pt Sc Ipp) (self : DealerAwaitingValues)
    (vcs : List (ValueCommitment Pt)) (tr : Transcript)
    (h : vcs.length = self.m) :
    self.receive_value_commitments ext vcs tr =
      (Except.ok
        ({ n := self.n, m := self.m,
           value_challenge :=
             { y := ext.challengeScalar (valueRoundTrace ext vcs tr),
               z := ext.challengeScalar
                 (valueRoundTrace ext vcs tr ++ [Entry.chal]) } },
          { y := ext.challengeScalar (valueRoundTrace ext vcs tr),
            z := ext.challengeScalar
              (valueRoundTrace ext vcs tr ++ [Entry.chal]) }),
        valueRoundTrace ext vcs tr ++ [Entry.chal, Entry.chal]) := by
  unfold DealerAwaitingValues.receive_value_commitments
  rw [if_neg (by omega)]
  simp only [value_fold_eq]
  simp [valueRoundTrace, Transcript.commitBytes, Transcript.challengeScalar]

/-- On a batch of the right length, `receive_poly_commitments` succeeds
with the aggregate state, one challenge `x`, and the transcript extended
by the two aggregate commits followed by one squeeze. -/
theorem receive_poly_commitments_ok {Pt Sc Ipp : Type} [AddCommGroup Pt]
    (ext : DealerExt Pt Sc Ipp) (self : DealerAwaitingPoly Sc)
    (pcs : List (PolyCommitment Pt)) (tr : Transcript)
    (h : pcs.length = self.m) :
    self.receive_poly_commitments ext pcs tr =
      (Except.ok
        ({ n := self.n, m := self.m,
           value_challenge := self.value_challenge,
           poly_challenge :=
             { x := ext.challengeScalar (polyRoundTrace ext pcs tr) } },
          { x := ext.challengeScalar (polyRoundTrace ext pcs tr) }),
        polyRoundTrace ext pcs tr ++ [Entry.chal]) := by
  unfold DealerAwaitingPoly.receive_poly_commitments
  rw [if_neg (by omega)]
  simp only [poly_fold_eq]
  simp [polyRoundTrace, Transcript.commitBytes, Transcript.challengeScalar]

/-- On a batch of the right length in which every share verifies,
`receive_shares` succeeds: the proof collects the `V`s, sums the group
elements and scalars, and the inner-product constructor is called on the
post-squeeze transcript with `Q = w * B`, the powers of `y⁻¹`, the
generator vectors, and the concatenated `l`/`r` vectors. -/
theorem receive_shares_ok {Pt Sc Ipp : Type}
    [AddCommGroup Pt] [CommRing Sc] [Inv Sc] [SMul Sc Pt]
    (ext : DealerExt Pt Sc Ipp) (self : DealerAwaitingShares Sc)
    (shares : List (ProofShare Pt Sc)) (gen : GeneratorsView Pt)
    (tr : Transcript)
    (hlen : shares.length = self.m)
    (hok : shares.all
      (fun ps => ext.verifyShare ps self.value_challenge self.poly_challenge)
      = true) :
    self.receive_shares ext shares gen tr =
      (Except.ok
        { n := self.n,
          value_commitments := shares.map (fun ps => ps.value_commitment.V),
          A := (shares.map (fun ps => ps.value_commitment.A)).sum,
          S := (shares.map (fun ps => ps.value_commitment.S)).sum,
          T_1 := (shares.map (fun ps => ps.poly_commitment.T_1)).sum,
          T_2 := (shares.map (fun ps => ps.poly_commitment.T_2)).sum,
          t_x := (shares.map (fun ps => ps.t_x)).sum,
          t_x_blinding := (shares.map (fun ps => ps.t_x_blinding)).sum,
          e_blinding := (shares.map (fun ps => ps.e_blinding)).sum,
          ipp_proof :=
            (ext.ippCreate (sharesRoundTrace ext shares tr ++ [Entry.chal])
              (ext.challengeScalar (sharesRoundTrace ext shares tr) •
                gen.pedersen_generators.B)
              (util.exp_iter (self.value_challenge.y)⁻¹) gen.G gen.H
              ((shares.map (fun ps => ps.l_vec)).flatten)
              ((shares.map (fun ps => ps.r_vec)).flatten)).1 },
        (ext.ippCreate (sharesRoundTrace ext shares tr ++ [Entry.chal])
          (ext.challengeScalar (sharesRoundTrace ext shares tr) •
            gen.pedersen_generators.B)
          (util.exp_iter (self.value_challenge.y)⁻¹) gen.G gen.H
          ((shares.map (fun ps => ps.l_vec)).flatten)
          ((shares.map (fun ps => ps.r_vec)).flatten)).2) := by
  unfold DealerAwaitingShares.receive_shares
  rw [if_neg (by omega), if_neg (by simp [hok])]
  simp only [foldl_add_map]
  simp [sharesRoundTrace, Transcript.commitBytes, Transcript.challengeScalar]

/-! ### The failure paths -/

/-- A wrong-length batch makes `receive_value_commitments` fail with the
length-mismatch error, the unchanged state, and the untouched
transcript. -/
theorem receive_value_commitments_len_err {Pt Sc Ipp : Type}
    [AddCommGroup Pt] (ext : DealerExt Pt Sc Ipp)
    (self : DealerAwaitingValues) (vcs : List (ValueCommitment Pt))
    (tr : Transcript) (h : vcs.length ≠ self.m) :
    self.receive_value_commitments ext vcs tr
      = (Except.error (self, msgLenValues), tr) := by
  unfold DealerAwaitingValues.receive_value_commitments
  rw [if_pos (by omega)]

/-- A wrong-length batch makes `receive_poly_commitments` fail with the
length-mismatch error, the unchanged state, and the untouched
transcript. -/
theorem receive_poly_commitments_len_err {Pt Sc Ipp : Type}
    [AddCommGroup Pt] (ext : DealerExt Pt Sc Ipp)
    (self : DealerAwaitingPoly Sc) (pcs : List (PolyCommitment Pt))
    (tr : Transcript) (h : pcs.length ≠ self.m) :
    self.receive_poly_commitments ext pcs tr
      = (Except.error (self, msgLenPoly), tr) := by
  unfold DealerAwaitingPoly.receive_poly_commitments
  rw [if_pos (by omega)]

/-- A wrong-length batch makes `receive_shares` fail with the
length-mismatch error, the unchanged state, and the untouched
transcript. -/
theorem receive_shares_len_err {Pt Sc Ipp : Type}
    [AddCommGroup Pt] [CommRing Sc] [Inv Sc] [SMul Sc Pt]
    (ext : DealerExt Pt Sc Ipp) (self : DealerAwaitingShares Sc)
    (shares : List (ProofShare Pt Sc)) (gen : GeneratorsView Pt)
    (tr : Transcript) (h : shares.length ≠ self.m) :
    self.receive_shares ext shares gen tr
      = (Except.error (self, msgLenShares), tr) := by
  unfold DealerAwaitingShares.receive_shares
  rw [if_pos (by omega)]

/-- A right-length batch with a failing share makes `receive_shares` fail
with the invalid-share error, the unchanged state, and the untouched
transcript. -/
theorem receive_shares_invalid_err {Pt Sc Ipp : Type}
    [AddCommGroup Pt] [CommRing Sc] [Inv Sc] [SMul Sc Pt]
    (ext : DealerExt Pt Sc Ipp) (self : DealerAwaitingShares Sc)
    (shares : List (ProofShare Pt Sc)) (gen : GeneratorsView Pt)
    (tr : Transcript) (hlen : shares.length = self.m)
    (hbad : ¬ shares.all
      (fun ps => ext.verifyShare ps self.value_challenge self.poly_challenge)
      = true) :
    self.receive_shares ext shares gen tr
      = (Except.error (self, msgInvalidShare), tr) := by
  unfold DealerAwaitingShares.receive_shares
  rw [if_neg (by omega), if_pos hbad]

/-! ### Inversions: what a successful transition says about its output -/

/-- If round 1 succeeded, the output state keeps `n` and `m` and stores
exactly the returned challenge. -/
theorem receive_value_commitments_ok_inv {Pt Sc Ipp : Type}
    [AddCommGroup Pt] (ext : DealerExt Pt Sc Ipp)
    (self : DealerAwaitingValues) (vcs : List (ValueCommitment Pt))
    (tr : Transcript) (st2 : DealerAwaitingPoly Sc)
    (ch : ValueChallenge Sc) (tr2 : Transcript)
    (h : self.receive_value_commitments ext vcs tr
      = (Except.ok (st2, ch), tr2)) :
    st2.n = self.n ∧ st2.m = self.m ∧ st2.value_challenge = ch := by
  by_cases hl : vcs.length = self.m
  · rw [receive_value_commitments_ok ext self vcs tr hl] at h
    simp only [Prod.mk.injEq, Except.ok.injEq] at h
    obtain ⟨⟨hs, hc⟩, -⟩ := h
    subst hs
    subst hc
    exact ⟨rfl, rfl, rfl⟩
  · rw [receive_value_commitments_len_err ext self vcs tr hl] at h
    simp at h

/-- If round 2 succeeded, the output state keeps `n`, `m` and the stored
round-1 challenge, and stores exactly the returned challenge. -/
theorem receive_poly_commitments_ok_inv {Pt Sc Ipp : Type}
    [AddCommGroup Pt] (ext : DealerExt Pt Sc Ipp)
    (self : DealerAwaitingPoly Sc) (pcs : List (PolyCommitment Pt))
    (tr : Transcript) (st3 : DealerAwaitingShares Sc)
    (ch : PolyChallenge Sc) (tr2 : Transcript)
    (h : self.receive_poly_commitments ext pcs tr
      = (Except.ok (st3, ch), tr2)) :
    st3.n = self.n ∧ st3.m = self.m ∧
      st3.value_challenge = self.value_challenge ∧
      st3.poly_challenge = ch := by
  by_cases hl : pcs.length = self.m
  · rw [receive_poly_commitments_ok ext self pcs tr hl] at h
    simp only [Prod.mk.injEq, Except.ok.injEq] at h
    obtain ⟨⟨hs, hc⟩, -⟩ := h
    subst hs
    subst hc
    exact ⟨rfl, rfl, rfl, rfl⟩
  · rw [receive_poly_commitments_len_err ext self pcs tr hl] at h
    simp at h

/-- If the final round succeeded, the emitted proof's `n` is the state's
`n`. -/
theorem receive_shares_ok_inv {Pt Sc Ipp : Type}
    [AddCommGroup Pt] [CommRing Sc] [Inv Sc] [SMul Sc Pt]
    (ext : DealerExt Pt Sc Ipp) (self : DealerAwaitingShares Sc)
    (shares : List (ProofShare Pt Sc)) (gen : GeneratorsView Pt)
    (tr : Transcript) (pr : Proof Pt Sc Ipp) (tr2 : Transcript)
    (h : self.receive_shares ext shares gen tr = (Except.ok pr, tr2)) :
    pr.n = self.n := by
  by_cases hl : shares.length = self.m
  · by_cases hall : shares.all
        (fun ps => ext.verifyShare ps self.value_challenge self.poly_challenge)
        = true
    · rw [receive_shares_ok ext self shares gen tr hl hall] at h
      simp only [Prod.mk.injEq, Except.ok.injEq] at h
      obtain ⟨hp, -⟩ := h
      subst hp
      rfl
    · rw [receive_shares_invalid_err ext self shares gen tr hl hall] at h
      simp at h
  · rw [receive_shares_len_err ext self shares gen tr hl] at h
    simp at h

/-! ### The claims -/

/-- C1: on an all-valid batch of `m` shares, `receive_shares` aggregates
exactly as specified: the proof's `value_commitments` is the per-party
`V` list concatenated in batch order (not summed); `A`, `S`, `T_1`, `T_2`
are group sums (from the identity) of the per-party values in batch
order; `t_x`, `t_x_blinding`, `e_blinding` are scalar sums (from zero);
and the `l_vec`/`r_vec` handed to the inner-product constructor are the
per-party slices concatenated in batch order, of total length `n·m` when
every share contributes length-`n` slices. -/
theorem claim_C1_shares_aggregation {Pt Sc Ipp : Type}
    [AddCommGroup Pt] [CommRing Sc] [Inv Sc] [SMul Sc Pt]
    (ext : DealerExt Pt Sc Ipp) (self : DealerAwaitingShares Sc)
    (shares : List (ProofShare Pt Sc)) (gen : GeneratorsView Pt)
    (tr : Transcript) (n0 : Nat)
    (hlen : shares.length = self.m)
    (hok : ∀ ps ∈ shares,
      ext.verifyShare ps self.value_challenge self.poly_challenge = true)
    (hl : ∀ ps ∈ shares, ps.l_vec.length = n0)
    (hr : ∀ ps ∈ shares, ps.r_vec.length = n0) :
    self.receive_shares ext shares gen tr =
      (Except.ok
        { n := self.n,
          value_commitments := shares.map (fun ps => ps.value_commitment.V),
          A := (shares.map (fun ps => ps.value_commitment.A)).sum,
          S := (shares.map (fun ps => ps.value_commitment.S)).sum,
          T_1 := (shares.map (fun ps => ps.poly_commitment.T_1)).sum,
          T_2 := (shares.map (fun ps => ps.poly_commitment.T_2)).sum,
          t_x := (shares.map (fun ps => ps.t_x)).sum,
          t_x_blinding := (shares.map (fun ps => ps.t_x_blinding)).sum,
          e_blinding := (shares.map (fun ps => ps.e_blinding)).sum,
          ipp_proof :=
            (ext.ippCreate (sharesRoundTrace ext shares tr ++ [Entry.chal])
              (ext.challengeScalar (sharesRoundTrace ext shares tr) •
                gen.pedersen_generators.B)
              (util.exp_iter (self.value_challenge.y)⁻¹) gen.G gen.H
              ((shares.map (fun ps => ps.l_vec)).flatten)
              ((shares.map (fun ps => ps.r_vec)).flatten)).1 },
        (ext.ippCreate (sharesRoundTrace ext shares tr ++ [Entry.chal])
          (ext.challengeScalar (sharesRoundTrace ext shares tr) •
            gen.pedersen_generators.B)
          (util.exp_iter (self.value_challenge.y)⁻¹) gen.G gen.H
          ((shares.map (fun ps => ps.l_vec)).flatten)
          ((shares.map (fun ps => ps.r_vec)).flatten)).2) ∧
    ((shares.map (fun ps => ps.l_vec)).flatten).length = n0 * self.m ∧
    ((shares.map (fun ps => ps.r_vec)).flatten).length = n0 * self.m := by
  refine ⟨receive_shares_ok ext self shares gen tr hlen
    (List.all_eq_true.mpr (by simpa using hok)), ?_, ?_⟩
  · rw [flatten_length_const (shares.map fun ps => ps.l_vec) n0 (by
      intro x hx
      obtain ⟨ps, hps, rfl⟩ := List.mem_map.mp hx
      exact hl ps hps)]
    rw [List.length_map, hlen]
  · rw [flatten_length_const (shares.map fun ps => ps.r_vec) n0 (by
      intro x hx
      obtain ⟨ps, hps, rfl⟩ := List.mem_map.mp hx
      exact hr ps hps)]
    rw [List.length_map, hlen]

/-- Witness for C1 at the concrete fixture: the concatenated vectors have
length `n·m = 2·1`. -/
theorem claim_C1_shares_aggregation_witness :
    (([wShare].map (fun ps => ps.l_vec)).flatten).length = 2 * 1 :=
  (claim_C1_shares_aggregation wExt wSt3 [wShare] wGen wTr3 2
    (by decide) (by decide) (by decide) (by decide)).2.1

/-- C2: a right-length batch containing a share that fails verification
makes `receive_shares` fail with the invalid-share error, returning the
prior state unchanged, emitting no proof, touching no transcript state,
and exposing no partial aggregate. -/
theorem claim_C2_invalid_share_abort {Pt Sc Ipp : Type}
    [AddCommGroup Pt] [CommRing Sc] [Inv Sc] [SMul Sc Pt]
    (ext : DealerExt Pt Sc Ipp) (self : DealerAwaitingShares Sc)
    (shares : List (ProofShare Pt Sc)) (gen : GeneratorsView Pt)
    (tr : Transcript)
    (hlen : shares.length = self.m)
    (hbad : ∃ ps ∈ shares,
      ext.verifyShare ps self.value_challenge self.poly_challenge = false) :
    self.receive_shares ext shares gen tr
      = (Except.error (self, msgInvalidShare), tr) := by
  apply receive_shares_invalid_err ext self shares gen tr hlen
  obtain ⟨ps, hm, hf⟩ := hbad
  intro hall
  have hx := List.all_eq_true.mp hall ps hm
  rw [hf] at hx
  cases hx

/-- Witness for C2 at the concrete fixture: one invalid share aborts the
batch with the unchanged state and transcript. -/
theorem claim_C2_invalid_share_abort_witness :
    wSt3.receive_shares wExt [wBadShare] wGen wTr3
      = (Except.error (wSt3, msgInvalidShare), wTr3) :=
  claim_C2_invalid_share_abort wExt wSt3 [wBadShare] wGen wTr3
    (by decide) (by decide)

/-- C3: a batch whose length differs from `m` makes each of the three
`receive_*` operations fail with the length-mismatch error, returning the
unconsumed prior state (all internal fields unchanged) and leaving the
transcript unmodified. -/
theorem claim_C3_length_mismatch {Pt Sc Ipp : Type}
    [AddCommGroup Pt] [CommRing Sc] [Inv Sc] [SMul Sc Pt]
    (ext : DealerExt Pt Sc Ipp) (st1 : DealerAwaitingValues)
    (st2 : DealerAwaitingPoly Sc) (st3 : DealerAwaitingShares Sc)
    (vcs : List (ValueCommitment Pt)) (pcs : List (PolyCommitment Pt))
    (shares : List (ProofShare Pt Sc)) (gen : GeneratorsView Pt)
    (t1 t2 t3 : Transcript)
    (hv : vcs.length ≠ st1.m) (hp : pcs.length ≠ st2.m)
    (hs : shares.length ≠ st3.m) :
    st1.receive_value_commitments ext vcs t1
        = (Except.error (st1, msgLenValues), t1) ∧
    st2.receive_poly_commitments ext pcs t2
        = (Except.error (st2, msgLenPoly), t2) ∧
    st3.receive_shares ext shares gen t3
        = (Except.error (st3, msgLenShares), t3) :=
  ⟨receive_value_commitments_len_err ext st1 vcs t1 hv,
   receive_poly_commitments_len_err ext st2 pcs t2 hp,
   receive_shares_len_err ext st3 shares gen t3 hs⟩

/-- Witness for C3 at the concrete fixture: an empty batch against
`m = 1` is rejected by round 1 with the unchanged state and transcript. -/
theorem claim_C3_length_mismatch_witness :
    wSt1.receive_value_commitments wExt
        ([] : List (ValueCommitment (ZMod 5))) wTr1
      = (Except.error (wSt1, msgLenValues), wTr1) :=
  (claim_C3_length_mismatch wExt wSt1 wSt2 wSt3 [] [] [] wGen wTr1 wTr2 wTr3
    (by decide) (by decide) (by decide)).1

/-- C4: on a batch of exactly `m` value commitments, the dealer commits
each party's `V` individually in batch order, then the aggregate `A`,
then the aggregate `S`; draws exactly two challenge scalars, `y` first
and `z` second; and the returned `DealerAwaitingPoly` state carries the
same `n` and `m` and stores exactly the `(y, z)` pair that is returned
for broadcast. -/
theorem claim_C4_value_round {Pt Sc Ipp : Type} [AddCommGroup Pt]
    (ext : DealerExt Pt Sc Ipp) (self : DealerAwaitingValues)
    (vcs : List (ValueCommitment Pt)) (tr : Transcript)
    (h : vcs.length = self.m) :
    self.receive_value_commitments ext vcs tr =
      (Except.ok
        ({ n := self.n, m := self.m,
           value_challenge :=
             { y := ext.challengeScalar (valueRoundTrace ext vcs tr),
               z := ext.challengeScalar
                 (valueRoundTrace ext vcs tr ++ [Entry.chal]) } },
          { y := ext.challengeScalar (valueRoundTrace ext vcs tr),
            z := ext.challengeScalar
              (valueRoundTrace ext vcs tr ++ [Entry.chal]) }),
        valueRoundTrace ext vcs tr ++ [Entry.chal, Entry.chal]) :=
  receive_value_commitments_ok ext self vcs tr h

/-- Witness for C4 at the concrete fixture. -/
theorem claim_C4_value_round_witness :
    wSt1.receive_value_commitments wExt [wVC] wTr1 =
      (Except.ok
        ({ n := wSt1.n, m := wSt1.m,
           value_challenge :=
             { y := wExt.challengeScalar (valueRoundTrace wExt [wVC] wTr1),
               z := wExt.challengeScalar
                 (valueRoundTrace wExt [wVC] wTr1 ++ [Entry.chal]) } },
          { y := wExt.challengeScalar (valueRoundTrace wExt [wVC] wTr1),
            z := wExt.challengeScalar
              (valueRoundTrace wExt [wVC] wTr1 ++ [Entry.chal]) }),
        valueRoundTrace wExt [wVC] wTr1 ++ [Entry.chal, Entry.chal]) :=
  claim_C4_value_round wExt wSt1 [wVC] wTr1 (by decide)

/-- C5: on a batch of exactly `m` poly commitments, the dealer sums the
per-party `T_1`s and `T_2`s, commits the aggregates in order `T_1` then
`T_2`, draws exactly one challenge scalar `x`, and the returned
`DealerAwaitingShares` state carries the same `n` and `m`, the previously
held value challenge, and stores exactly the `x` returned for
broadcast. -/
theorem claim_C5_poly_round {Pt Sc Ipp : Type} [AddCommGroup Pt]
    (ext : DealerExt Pt Sc Ipp) (self : DealerAwaitingPoly Sc)
    (pcs : List (PolyCommitment Pt)) (tr : Transcript)
    (h : pcs.length = self.m) :
    self.receive_poly_commitments ext pcs tr =
      (Except.ok
        ({ n := self.n, m := self.m,
           value_challenge := self.value_challenge,
           poly_challenge :=
             { x := ext.challengeScalar (polyRoundTrace ext pcs tr) } },
          { x := ext.challengeScalar (polyRoundTrace ext pcs tr) }),
        polyRoundTrace ext pcs tr ++ [Entry.chal]) :=
  receive_poly_commitments_ok ext self pcs tr h

/-- Witness for C5 at the concrete fixture. -/
theorem claim_C5_poly_round_witness :
    wSt2.receive_poly_commitments wExt [wPC] wTr2 =
      (Except.ok
        ({ n := wSt2.n, m := wSt2.m,
           value_challenge := wSt2.value_challenge,
           poly_challenge :=
             { x := wExt.challengeScalar (polyRoundTrace wExt [wPC] wTr2) } },
          { x := wExt.challengeScalar (polyRoundTrace wExt [wPC] wTr2) }),
        polyRoundTrace wExt [wPC] wTr2 ++ [Entry.chal]) :=
  claim_C5_poly_round wExt wSt2 [wPC] wTr2 (by decide)

/-- C6: on an all-valid batch, `receive_shares` commits the three summed
scalars in order `t_x`, `t_x_blinding`, `e_blinding`; only after those
commits does it draw the single challenge `w`; it computes
`Q = w · B` from the generators view's primary base generator; and it
calls the inner-product constructor with the post-squeeze transcript,
`Q`, the exponent sequence generated from `y⁻¹`, the generator vectors
`G` and `H`, and the concatenated `l` and `r` vectors. -/
theorem claim_C6_ipp_construction {Pt Sc Ipp : Type}
    [AddCommGroup Pt] [CommRing Sc] [Inv Sc] [SMul Sc Pt]
    (ext : DealerExt Pt Sc Ipp) (self : DealerAwaitingShares Sc)
    (shares : List (ProofShare Pt Sc)) (gen : GeneratorsView Pt)
    (tr : Transcript)
    (hlen : shares.length = self.m)
    (hok : ∀ ps ∈ shares,
      ext.verifyShare ps self.value_challenge self.poly_challenge = true) :
    ∃ pr : Proof Pt Sc Ipp,
      self.receive_shares ext shares gen tr =
        (Except.ok pr,
          (ext.ippCreate
            (tr ++ [Entry.bytes (ext.scalarBytes
                      ((shares.map (fun ps => ps.t_x)).sum)),
                    Entry.bytes (ext.scalarBytes
                      ((shares.map (fun ps => ps.t_x_blinding)).sum)),
                    Entry.bytes (ext.scalarBytes
                      ((shares.map (fun ps => ps.e_blinding)).sum)),
                    Entry.chal])
            (ext.challengeScalar
              (tr ++ [Entry.bytes (ext.scalarBytes
                        ((shares.map (fun ps => ps.t_x)).sum)),
                      Entry.bytes (ext.scalarBytes
                        ((shares.map (fun ps => ps.t_x_blinding)).sum)),
                      Entry.bytes (ext.scalarBytes
                        ((shares.map (fun ps => ps.e_blinding)).sum))]) •
              gen.pedersen_generators.B)
            (util.exp_iter (self.value_challenge.y)⁻¹) gen.G gen.H
            ((shares.map (fun ps => ps.l_vec)).flatten)
            ((shares.map (fun ps => ps.r_vec)).flatten)).2) ∧
      pr.ipp_proof =
        (ext.ippCreate
          (tr ++ [Entry.bytes (ext.scalarBytes
                    ((shares.map (fun ps => ps.t_x)).sum)),
                  Entry.bytes (ext.scalarBytes
                    ((shares.map (fun ps => ps.t_x_blinding)).sum)),
                  Entry.bytes (ext.scalarBytes
                    ((shares.map (fun ps => ps.e_blinding)).sum)),
                  Entry.chal])
          (ext.challengeScalar
            (tr ++ [Entry.bytes (ext.scalarBytes
                      ((shares.map (fun ps => ps.t_x)).sum)),
                    Entry.bytes (ext.scalarBytes
                      ((shares.map (fun ps => ps.t_x_blinding)).sum)),
                    Entry.bytes (ext.scalarBytes
                      ((shares.map (fun ps => ps.e_blinding)).sum))]) •
            gen.pedersen_generators.B)
          (util.exp_iter (self.value_challenge.y)⁻¹) gen.G gen.H
          ((shares.map (fun ps => ps.l_vec)).flatten)
          ((shares.map (fun ps => ps.r_vec)).flatten)).1 := by
  have h := receive_shares_ok ext self shares gen tr hlen
    (List.all_eq_true.mpr (by simpa using hok))
  have hasc : sharesRoundTrace ext shares tr ++ [Entry.chal]
      = tr ++ [Entry.bytes (ext.scalarBytes
                  ((shares.map (fun ps => ps.t_x)).sum)),
               Entry.bytes (ext.scalarBytes
                  ((shares.map (fun ps => ps.t_x_blinding)).sum)),
               Entry.bytes (ext.scalarBytes
                  ((shares.map (fun ps => ps.e_blinding)).sum)),
               Entry.chal] := by
    simp [sharesRoundTrace]
  rw [hasc] at h
  rw [show sharesRoundTrace ext shares tr
      = tr ++ [Entry.bytes (ext.scalarBytes
                  ((shares.map (fun ps => ps.t_x)).sum)),
               Entry.bytes (ext.scalarBytes
                  ((shares.map (fun ps => ps.t_x_blinding)).sum)),
               Entry.bytes (ext.scalarBytes
                  ((shares.map (fun ps => ps.e_blinding)).sum))] from rfl] at h
  exact ⟨_, h, rfl⟩

/-- Witness for C6 at the concrete fixture. -/
theorem claim_C6_ipp_construction_witness :
    ∃ pr : Proof (ZMod 5) (ZMod 5) Nat,
      wSt3.receive_shares wExt [wShare] wGen wTr3 =
        (Except.ok pr,
          (wExt.ippCreate
            (wTr3 ++ [Entry.bytes (wExt.scalarBytes
                        (([wShare].map (fun ps => ps.t_x)).sum)),
                      Entry.bytes (wExt.scalarBytes
                        (([wShare].map (fun ps => ps.t_x_blinding)).sum)),
                      Entry.bytes (wExt.scalarBytes
                        (([wShare].map (fun ps => ps.e_blinding)).sum)),
                      Entry.chal])
            (wExt.challengeScalar
              (wTr3 ++ [Entry.bytes (wExt.scalarBytes
                          (([wShare].map (fun ps => ps.t_x)).sum)),
                        Entry.bytes (wExt.scalarBytes
                          (([wShare].map (fun ps => ps.t_x_blinding)).sum)),
                        Entry.bytes (wExt.scalarBytes
                          (([wShare].map (fun ps => ps.e_blinding)).sum))]) •
              wGen.pedersen_generators.B)
            (util.exp_iter (wSt3.value_challenge.y)⁻¹) wGen.G wGen.H
            (([wShare].map (fun ps => ps.l_vec)).flatten)
            (([wShare].map (fun ps => ps.r_vec)).flatten)).2) ∧
      pr.ipp_proof =
        (wExt.ippCreate
          (wTr3 ++ [Entry.bytes (wExt.scalarBytes
                      (([wShare].map (fun ps => ps.t_x)).sum)),
                    Entry.bytes (wExt.scalarBytes
                      (([wShare].map (fun ps => ps.t_x_blinding)).sum)),
                    Entry.bytes (wExt.scalarBytes
                      (([wShare].map (fun ps => ps.e_blinding)).sum)),
                    Entry.chal])
          (wExt.challengeScalar
            (wTr3 ++ [Entry.bytes (wExt.scalarBytes
                        (([wShare].map (fun ps => ps.t_x)).sum)),
                      Entry.bytes (wExt.scalarBytes
                        (([wShare].map (fun ps => ps.t_x_blinding)).sum)),
                      Entry.bytes (wExt.scalarBytes
                        (([wShare].map (fun ps => ps.e_blinding)).sum))]) •
            wGen.pedersen_generators.B)
          (util.exp_iter (wSt3.value_challenge.y)⁻¹) wGen.G wGen.H
          (([wShare].map (fun ps => ps.l_vec)).flatten)
          (([wShare].map (fun ps => ps.r_vec)).flatten)).1 :=
  claim_C6_ipp_construction wExt wSt3 [wShare] wGen wTr3
    (by decide) (by decide)

/-- C7: every dealer transition is deterministic: two runs of the full
sequence (start, the three receive operations) with identical inputs and
an identical starting transcript produce identical broadcast challenges,
an identical final proof, and an identical final transcript. -/
theorem claim_C7_determinism {Pt Sc Ipp : Type}
    [AddCommGroup Pt] [CommRing Sc] [Inv Sc] [SMul Sc Pt]
    (ext : DealerExt Pt Sc Ipp) (n m n2 m2 : Nat) (tr tr2 : Transcript)
    (vcs vcs2 : List (ValueCommitment Pt))
    (pcs pcs2 : List (PolyCommitment Pt))
    (shares shares2 : List (ProofShare Pt Sc))
    (gen gen2 : GeneratorsView Pt)
    (hn : n = n2) (hm : m = m2) (htr : tr = tr2) (hv : vcs = vcs2)
    (hp : pcs = pcs2) (hs : shares = shares2) (hg : gen = gen2) :
    runDealer ext n m tr vcs pcs shares gen
      = runDealer ext n2 m2 tr2 vcs2 pcs2 shares2 gen2 := by
  subst hn hm htr hv hp hs hg
  rfl

/-- Witness for C7 at the concrete fixture. -/
theorem claim_C7_determinism_witness :
    runDealer wExt 2 1 [] [wVC] [wPC] [wShare] wGen
      = runDealer wExt 2 1 [] [wVC] [wPC] [wShare] wGen :=
  claim_C7_determinism wExt 2 1 2 1 [] [] [wVC] [wVC] [wPC] [wPC]
    [wShare] [wShare] wGen wGen rfl rfl rfl rfl rfl rfl rfl

/-- C8: for every `n` and `m`, `Dealer::new` always succeeds (its return
type admits an error, but no input produces one) and commits exactly `n`
and then `m`, as 64-bit values in that order, to the transcript before
returning the `DealerAwaitingValues` state. -/
theorem claim_C8_new_always_ok (n m : Nat) (tr : Transcript) :
    Dealer.new n m tr
      = (Except.ok { n := n, m := m },
         tr ++ [Entry.u64 n, Entry.u64 m]) :=
  dealer_new_eq n m tr

/-- C9: each transition fails exactly as specified and never swallows an
error: rounds 1 and 2 fail precisely when the batch length differs from
`m`, and only with the length-mismatch error; the final round succeeds
precisely when the batch length equals `m` and every share verifies, and
fails only with one of the two error kinds; and the degenerate case
`m = 0` with an empty batch is accepted and yields identity/zero
aggregates. -/
theorem claim_C9_error_totality {Pt Sc Ipp : Type}
    [AddCommGroup Pt] [CommRing Sc] [Inv Sc] [SMul Sc Pt]
    (ext : DealerExt Pt Sc Ipp) (st1 : DealerAwaitingValues)
    (st2 : DealerAwaitingPoly Sc) (st3 st0 : DealerAwaitingShares Sc)
    (vcs : List (ValueCommitment Pt)) (pcs : List (PolyCommitment Pt))
    (shares : List (ProofShare Pt Sc)) (gen : GeneratorsView Pt)
    (t1 t2 t3 t0 : Transcript) :
    ((∃ r, (st1.receive_value_commitments ext vcs t1).1 = Except.ok r) ↔
        vcs.length = st1.m) ∧
    (∀ e, (st1.receive_value_commitments ext vcs t1).1 = Except.error e →
        e = (st1, msgLenValues)) ∧
    ((∃ r, (st2.receive_poly_commitments ext pcs t2).1 = Except.ok r) ↔
        pcs.length = st2.m) ∧
    (∀ e, (st2.receive_poly_commitments ext pcs t2).1 = Except.error e →
        e = (st2, msgLenPoly)) ∧
    ((∃ r, (st3.receive_shares ext shares gen t3).1 = Except.ok r) ↔
        (shares.length = st3.m ∧ ∀ ps ∈ shares,
          ext.verifyShare ps st3.value_challenge st3.poly_challenge = true)) ∧
    (∀ e, (st3.receive_shares ext shares gen t3).1 = Except.error e →
        e = (st3, msgLenShares) ∨ e = (st3, msgInvalidShare)) ∧
    (st0.m = 0 → ∃ pr,
      (st0.receive_shares ext ([] : List (ProofShare Pt Sc)) gen t0).1
          = Except.ok pr ∧
        pr.value_commitments = ([] : List Pt) ∧ pr.A = 0 ∧ pr.S = 0 ∧
        pr.T_1 = 0 ∧ pr.T_2 = 0 ∧ pr.t_x = 0 ∧ pr.t_x_blinding = 0 ∧
        pr.e_blinding = 0) := by
  refine ⟨⟨?_, ?_⟩, ?_, ⟨?_, ?_⟩, ?_, ⟨?_, ?_⟩, ?_, ?_⟩
  · rintro ⟨r, hr⟩
    by_contra hne
    rw [receive_value_commitments_len_err ext st1 vcs t1 hne] at hr
    simp at hr
  · intro h
    exact ⟨_, by rw [receive_value_commitments_ok ext st1 vcs t1 h]⟩
  · intro e he
    by_cases h : vcs.length = st1.m
    · rw [receive_value_commitments_ok ext st1 vcs t1 h] at he
      simp at he
    · rw [receive_value_commitments_len_err ext st1 vcs t1 h] at he
      exact (Except.error.inj he).symm
  · rintro ⟨r, hr⟩
    by_contra hne
    rw [receive_poly_commitments_len_err ext st2 pcs t2 hne] at hr
    simp at hr
  · intro h
    exact ⟨_, by rw [receive_poly_commitments_ok ext st2 pcs t2 h]⟩
  · intro e he
    by_cases h : pcs.length = st2.m
    · rw [receive_poly_commitments_ok ext st2 pcs t2 h] at he
      simp at he
    · rw [receive_poly_commitments_len_err ext st2 pcs t2 h] at he
      exact (Except.error.inj he).symm
  · rintro ⟨r, hr⟩
    by_cases hl : shares.length = st3.m
    · refine ⟨hl, ?_⟩
      by_cases hall : shares.all
          (fun ps => ext.verifyShare ps st3.value_challenge st3.poly_challenge)
          = true
      · simpa using List.all_eq_true.mp hall
      · rw [receive_shares_invalid_err ext st3 shares gen t3 hl hall] at hr
        simp at hr
    · rw [receive_shares_len_err ext st3 shares gen t3 hl] at hr
      simp at hr
  · rintro ⟨hl, hall⟩
    exact ⟨_, by rw [receive_shares_ok ext st3 shares gen t3 hl
      (List.all_eq_true.mpr (by simpa using hall))]⟩
  · intro e he
    by_cases hl : shares.length = st3.m
    · by_cases hall : shares.all
          (fun ps => ext.verifyShare ps st3.value_challenge st3.poly_challenge)
          = true
      · rw [receive_shares_ok ext st3 shares gen t3 hl hall] at he
        simp at he
      · rw [receive_shares_invalid_err ext st3 shares gen t3 hl hall] at he
        exact Or.inr (Except.error.inj he).symm
    · rw [receive_shares_len_err ext st3 shares gen t3 hl] at he
      exact Or.inl (Except.error.inj he).symm
  · intro h0
    have h := receive_shares_ok ext st0 [] gen t0 (by simp [h0]) rfl
    rw [h]
    exact ⟨_, rfl, by simp, by simp, by simp, by simp, by simp, by simp,
      by simp, by simp⟩

/-- C10: the `n` and `m` fixed by `Dealer::new` are carried unchanged
through every successful transition, the stored value challenge is passed
unchanged from `DealerAwaitingPoly` into `DealerAwaitingShares`, and the
`n` field of the final proof equals the `n` originally given to
`Dealer::new`. -/
theorem claim_C10_parameter_threading {Pt Sc Ipp : Type}
    [AddCommGroup Pt] [CommRing Sc] [Inv Sc] [SMul Sc Pt]
    (ext : DealerExt Pt Sc Ipp) (n m : Nat)
    (tr0 tr1 tr2 tr3 tr4 : Transcript)
    (vcs : List (ValueCommitment Pt)) (pcs : List (PolyCommitment Pt))
    (shares : List (ProofShare Pt Sc)) (gen : GeneratorsView Pt)
    (st1 : DealerAwaitingValues) (st2 : DealerAwaitingPoly Sc)
    (st3 : DealerAwaitingShares Sc) (pr : Proof Pt Sc Ipp)
    (vch : ValueChallenge Sc) (pch : PolyChallenge Sc)
    (h1 : Dealer.new n m tr0 = (Except.ok st1, tr1))
    (h2 : st1.receive_value_commitments ext vcs tr1
      = (Except.ok (st2, vch), tr2))
    (h3 : st2.receive_poly_commitments ext pcs tr2
      = (Except.ok (st3, pch), tr3))
    (h4 : st3.receive_shares ext shares gen tr3 = (Except.ok pr, tr4)) :
    st1.n = n ∧ st1.m = m ∧ st2.n = n ∧ st2.m = m ∧ st3.n = n ∧
      st3.m = m ∧ st3.value_challenge = st2.value_challenge ∧ pr.n = n := by
  have e1 : st1 = { n := n, m := m } := by
    rw [dealer_new_eq] at h1
    simp only [Prod.mk.injEq, Except.ok.injEq] at h1
    exact h1.1.symm
  obtain ⟨i2n, i2m, -⟩ :=
    receive_value_commitments_ok_inv ext st1 vcs tr1 st2 vch tr2 h2
  obtain ⟨i3n, i3m, i3c, -⟩ :=
    receive_poly_commitments_ok_inv ext st2 pcs tr2 st3 pch tr3 h3
  have i4 := receive_shares_ok_inv ext st3 shares gen tr3 pr tr4 h4
  subst e1
  exact ⟨rfl, rfl, by rw [i2n], by rw [i2m], by rw [i3n, i2n],
    by rw [i3m, i2m], i3c, by rw [i4, i3n, i2n]⟩

/-- Witness for C10 at the concrete fixture: a full successful run with
`n = 2`, `m = 1`. -/
theorem claim_C10_parameter_threading_witness :
    wSt1.n = 2 ∧ wSt1.m = 1 ∧ wSt2.n = 2 ∧ wSt2.m = 1 ∧ wSt3.n = 2 ∧
      wSt3.m = 1 ∧ wSt3.value_challenge = wSt2.value_challenge ∧
      wProof.n = 2 :=
  claim_C10_parameter_threading wExt 2 1 [] wTr1 wTr2 wTr3 wTr4
    [wVC] [wPC] [wShare] wGen wSt1 wSt2 wSt3 wProof
    { y := 0, z := 1 } { x := 4 }
    (by decide) (by decide) (by decide) (by decide)

end RBP
